import Mathlib

/-!
Verification of the specification-to-definition core of the
openapi-mcp-generator repository.

The development shallowly embeds the Python modules
`src/openapi_mcp_generator/parser.py` and
`src/openapi_mcp_generator/generators.py` (the modular core), together with
the fallback implementations in `src/generator.py` and
`src/mcp_generator.py` where they differ.  Parsed YAML documents are
represented by the inductive type `Yaml`; Python dictionary/subscript
operations that may raise are modelled in an `Except PyError` monad, where
an `error` value corresponds to an uncaught Python exception that would
terminate the run.
-/

/-- A parsed YAML value, as produced by `yaml.safe_load`: `None`, booleans,
integers, strings, lists and string-keyed mappings.  Floating point scalars
are not modelled (no property below concerns them).  Mappings produced by
the YAML parser have pairwise distinct keys. -/
inductive Yaml where
  | null
  | bool (b : Bool)
  | int (n : Int)
  | str (s : String)
  | list (elems : List Yaml)
  | map (entries : List (String × Yaml))

/-- Classes of Python exceptions that the embedded code can raise.
`unmodelled` stands for the interpolation of a list or dict value into an
f-string, which the embedding does not render. -/
inductive PyError where
  | keyError
  | typeError
  | attributeError
  | unmodelled
deriving DecidableEq, Repr

/-- Lookup of a key in a Python dict represented as an association list
with distinct keys (first match). -/
def dictLookup (k : String) : List (String × Yaml) → Option Yaml
  | [] => none
  | e :: rest => if e.1 = k then some e.2 else dictLookup k rest

/-- Python truthiness (`bool(v)`) of a parsed YAML value. -/
def Yaml.truthy : Yaml → Bool
  | .null => false
  | .bool b => b
  | .int n => n != 0
  | .str s => s != ""
  | .list xs => !xs.isEmpty
  | .map kvs => !kvs.isEmpty

/-- Decides whether the character list `needle` is a prefix of `hay`. -/
def charsPrefixOf : List Char → List Char → Bool
  | [], _ => true
  | _ :: _, [] => false
  | a :: as, b :: bs => a == b && charsPrefixOf as bs

/-- Decides whether the character list `needle` occurs contiguously in
`hay` (Python substring containment). -/
def charsInfixOf (needle : List Char) : List Char → Bool
  | [] => needle.isEmpty
  | c :: rest => charsPrefixOf needle (c :: rest) || charsInfixOf needle rest

/-- Python `needle in v` for a string `needle`: key containment for dicts,
substring containment for strings, element equality for lists, and a
`TypeError` for non-container values. -/
def pyContains (needle : String) : Yaml → Except PyError Bool
  | .map kvs => .ok (dictLookup needle kvs).isSome
  | .str s => .ok (charsInfixOf needle.data s.data)
  | .list xs =>
      .ok (xs.any (fun v => match v with
                            | .str s => decide (s = needle)
                            | _ => false))
  | _ => .error .typeError

/-- Python `v[k]` for a string key `k`: dict lookup raising `KeyError`
when the key is absent, and `TypeError` on every non-dict value. -/
def pyIndex : Yaml → String → Except PyError Yaml
  | .map kvs, k =>
      match dictLookup k kvs with
      | some v => .ok v
      | none => .error .keyError
  | _, _ => .error .typeError

/-- Python `v.get(k, d)`: defaulting dict lookup; `AttributeError` on
non-dict values. -/
def Yaml.get (v : Yaml) (k : String) (d : Yaml) : Except PyError Yaml :=
  match v with
  | .map kvs => .ok ((dictLookup k kvs).getD d)
  | _ => .error .attributeError

/-- Python `v.items()`: the entry list of a dict; `AttributeError` on
non-dict values. -/
def pyItems : Yaml → Except PyError (List (String × Yaml))
  | .map kvs => .ok kvs
  | _ => .error .attributeError

/-- Python iteration `for x in v`: elements of a list, keys of a dict,
one-character strings of a string; `TypeError` otherwise. -/
def pyIter : Yaml → Except PyError (List Yaml)
  | .list xs => .ok xs
  | .map kvs => .ok (kvs.map (fun e => Yaml.str e.1))
  | .str s => .ok (s.data.map (fun c => Yaml.str (String.mk [c])))
  | _ => .error .typeError

/-- Python `str(v)` restricted to scalar values, as interpolated by the
f-strings of the generators; interpolation of containers is left
unmodelled. -/
def pyStr : Yaml → Except PyError String
  | .str s => .ok s
  | .int n => .ok (toString n)
  | .bool true => .ok "True"
  | .bool false => .ok "False"
  | .null => .ok "None"
  | .list _ => .error .unmodelled
  | .map _ => .error .unmodelled

/-- First replacement of `parser.sanitize_description`:
`desc.replace` of each newline character by a single space. -/
def replaceNewlines (cs : List Char) : List Char :=
  cs.map (fun c => if c = '\n' then ' ' else c)

/-- Second replacement of `parser.sanitize_description`: each double
quote character is replaced by a backslash followed by the quote. -/
def escapeQuotes : List Char → List Char
  | [] => []
  | c :: cs =>
      if c = '"' then '\\' :: '"' :: escapeQuotes cs
      else c :: escapeQuotes cs

/-- Embedding of `parser.sanitize_description` (parser.py lines 47-59):
the empty string is returned unchanged (the `if not desc` guard), and
otherwise newlines are replaced by spaces and double quotes are escaped. -/
def sanitize_description (desc : String) : String :=
  if desc = "" then "" else String.mk (escapeQuotes (replaceNewlines desc.data))

/-- `parser.sanitize_description` applied to a raw document value, as done
by the generator call sites: a falsy value yields the empty string (the
`if not desc` guard), a truthy string is sanitized, and a truthy non-string
raises `AttributeError` at the `.replace` call. -/
def sanitizeYaml (v : Yaml) : Except PyError String :=
  if v.truthy then
    match v with
    | .str s => .ok (sanitize_description s)
    | _ => .error .attributeError
  else .ok ""

/-- Sequencing of two fallible Python steps: an uncaught exception in the
first step propagates, otherwise the second step runs on its value. -/
def eseq {a b : Type} : Except PyError a → (a → Except PyError b) → Except PyError b
  | .error e, _ => .error e
  | .ok v, f => f v

/-- The Python type chosen for a declared schema type value, per the
comparison chain of `_get_param_type`: only the string scalars
"integer", "number" and "boolean" compare equal to the corresponding
literals, everything else keeps the default "str". -/
def schemaTypeToPy : Yaml → String
  | .str s =>
      if s = "integer" then "int"
      else if s = "number" then "float"
      else if s = "boolean" then "bool"
      else "str"
  | _ => "str"

/-- Embedding of `generators._get_param_type` (generators.py lines
129-151): default "str"; when a `schema` key is present, its
`.get("type", "string")` value selects the type via `schemaTypeToPy`. -/
def _get_param_type (param : Yaml) : Except PyError String :=
  eseq (pyContains "schema" param) (fun b =>
    if b then
      eseq (pyIndex param "schema") (fun schema =>
        eseq (Yaml.get schema "type" (.str "string")) (fun st =>
          .ok (schemaTypeToPy st)))
    else .ok "str")

/-- A character stripped by `ref_path.strip` with the two-character strip
set of `resolve_reference`: the hash mark and the slash. -/
def isStripChar (c : Char) : Bool := c == '#' || c == '/'

/-- Python `ref_path.strip` with strip set hash-slash: removes any run of
those two characters from both ends of the string. -/
def pyStripHashSlash (s : String) : String :=
  String.mk (((s.data.dropWhile isStripChar).reverse.dropWhile isStripChar).reverse)

/-- Helper for `splitOnSlash`: accumulates the current segment (in
reverse) while scanning the characters. -/
def splitOnSlashAux : List Char → List Char → List String
  | [], acc => [String.mk acc.reverse]
  | c :: rest, acc =>
      if c = '/' then String.mk acc.reverse :: splitOnSlashAux rest []
      else splitOnSlashAux rest (c :: acc)

/-- Python `s.split` on the slash separator: segments between slashes,
with empty segments preserved and the empty string mapping to a single
empty segment. -/
def splitOnSlash (s : String) : List String := splitOnSlashAux s.data []

/-- The loop of `resolve_reference`: successively index the current value
by each segment.  Indexing a mapping without the key raises `KeyError`;
indexing a non-mapping raises `TypeError`. -/
def navigateRef : Yaml → List String → Except PyError Yaml
  | v, [] => .ok v
  | v, p :: ps =>
      match pyIndex v p with
      | .ok v2 => navigateRef v2 ps
      | .error e => .error e

/-- Embedding of `parser.resolve_reference` (parser.py lines 62-86): the
reference string is stripped of leading/trailing hash-slash characters and
split on slashes, the document is walked segment by segment, and only a
`KeyError` is caught (printing a warning and returning the empty dict);
any other exception propagates out of the function. -/
def resolve_reference (spec : Yaml) (ref_path : String) : Except PyError Yaml :=
  match navigateRef spec (splitOnSlash (pyStripHashSlash ref_path)) with
  | .ok v => .ok v
  | .error .keyError => .ok (Yaml.map [])
  | .error e => .error e

/-- The `$ref` branch of `generators._get_parameter_definitions`
(generators.py lines 110-115): a parameter object containing a `$ref` key
is replaced by the object the reference resolves to, otherwise it is used
inline.  A non-string `$ref` value would reach `ref_path.strip` and raise
`AttributeError`. -/
def resolveParamObj (spec : Yaml) (param_obj : Yaml) : Except PyError Yaml :=
  eseq (pyContains "$ref" param_obj) (fun hasRef =>
    if hasRef then
      eseq (pyIndex param_obj "$ref") (fun refv =>
        match refv with
        | .str ref_path => resolve_reference spec ref_path
        | _ => .error .attributeError)
    else .ok param_obj)

/-- One iteration of the parameter loop of
`generators._get_parameter_definitions` (generators.py lines 109-124):
resolve the parameter object, skip it (with a warning) when it is falsy or
lacks a `name` key, and otherwise emit the rendered
`name: type` fragment. -/
def processParam (spec : Yaml) (param_obj : Yaml) : Except PyError (Option String) :=
  eseq (resolveParamObj spec param_obj) (fun actual =>
    if actual.truthy = false then .ok none
    else
      eseq (pyContains "name" actual) (fun hasName =>
        if hasName = false then .ok none
        else
          eseq (pyIndex actual "name") (fun namev =>
            eseq (pyStr namev) (fun param_name =>
              eseq (_get_param_type actual) (fun param_type =>
                .ok (some (param_name ++ ": " ++ param_type)))))))

/-- The accumulation over the operation's parameter list performed by
`generators._get_parameter_definitions`: skipped parameters contribute
nothing, processed ones contribute their rendered fragment in order. -/
def paramLoop (spec : Yaml) : List Yaml → Except PyError (List String)
  | [] => .ok []
  | p :: rest =>
      eseq (processParam spec p) (fun o =>
        eseq (paramLoop spec rest) (fun tl => .ok (o.toList ++ tl)))

/-- Embedding of `generators._get_parameter_definitions` (generators.py
lines 97-126): iterate over `operation.get("parameters", [])` collecting
the rendered parameter fragments. -/
def _get_parameter_definitions (spec operation : Yaml) : Except PyError (List String) :=
  eseq (Yaml.get operation "parameters" (.list [])) (fun pv =>
    eseq (pyIter pv) (fun ps => paramLoop spec ps))

/-- The data interpolated into the tool template by
`generators._generate_tool`: operation id, sanitized description, HTTP
method, path, and the rendered parameter fragments (with the trailing
invocation-context parameter included). -/
structure ToolDef where
  operation_id : String
  description : String
  method : String
  path : String
  params : List String
deriving DecidableEq, Repr

/-- The literal tool template of `generators._generate_tool`
(generators.py lines 62-94), rendered against a `ToolDef`. -/
def ToolDef.render (t : ToolDef) : String :=
  "\n@mcp.tool(description=\"" ++ t.description ++ "\")\nasync def " ++
  t.operation_id ++ "(" ++ String.intercalate ", " t.params ++
  ") -> str:\n    \"\"\"\n    " ++ t.description ++
  "\n    \"\"\"\n    async with await get_http_client() as client:\n" ++
  "        try:\n            # Build the URL with path parameters\n" ++
  "            url = \"" ++ t.path ++ "\"\n            \n" ++
  "            # Extract query parameters\n            query_params = \x7b\x7d\n" ++
  "            # ... build query params from function args\n            \n" ++
  "            # Make the request\n            response = await client." ++
  t.method ++ "(\n                url,\n                params=query_params,\n" ++
  "                # Add other parameters as needed\n            )\n            \n" ++
  "            # Check if the request was successful\n" ++
  "            response.raise_for_status()\n            \n" ++
  "            # Return the response\n            return str(response.text)\n" ++
  "        \n        except httpx.HTTPStatusError as e:\n" ++
  "            return f\"API Error: \x7be.response.status_code\x7d - \x7be.response.text\x7d\"\n" ++
  "        except Exception as e:\n            return f\"Error: \x7bstr(e)\x7d\"\n"

/-- Python `s.upper()` at the character level (ASCII case mapping, which
coincides with Python on the method keys interpolated here). -/
def pyUpper (s : String) : String := String.mk (s.data.map Char.toUpper)

/-- Embedding of `generators._generate_tool` (generators.py lines 35-94):
operations without an `operationId` key are skipped (the empty string is
returned, modelled as `none`); otherwise the interpolated data of the
emitted tool block is assembled, with the default description
`METHOD path` when the operation has no description and the trailing
`ctx: Context` parameter appended.  The `upper()` call is modelled by
`pyUpper` (the method keys concerned are ASCII). -/
def _generate_tool (spec : Yaml) (path method : String) (operation : Yaml) :
    Except PyError (Option ToolDef) :=
  eseq (pyContains "operationId" operation) (fun hasId =>
    if hasId then
      eseq (pyIndex operation "operationId") (fun idv =>
        eseq (pyStr idv) (fun operation_id =>
          eseq (Yaml.get operation "description"
                  (.str (pyUpper method ++ " " ++ path))) (fun descv =>
            eseq (sanitizeYaml descv) (fun description =>
              eseq (_get_parameter_definitions spec operation) (fun ps =>
                .ok (some ⟨operation_id, description, method, path,
                           ps ++ ["ctx: Context"]⟩))))))
    else .ok none)

/-- The fixed allowed method set of `generate_tool_definitions`
(generators.py line 27). -/
def allowedMethods : List String := ["get", "post", "put", "delete", "patch"]

/-- The inner loop of `generators.generate_tool_definitions` over one path
item: methods outside the allowed set are ignored, and falsy (skipped)
tool strings are not appended. -/
def toolsOfPathItem (spec : Yaml) (path : String) :
    List (String × Yaml) → Except PyError (List ToolDef)
  | [] => .ok []
  | (method, operation) :: rest =>
      eseq (if allowedMethods.contains method then
              _generate_tool spec path method operation
            else .ok none) (fun o =>
        eseq (toolsOfPathItem spec path rest) (fun tl => .ok (o.toList ++ tl)))

/-- The outer loop of `generators.generate_tool_definitions` over the
entries of the `paths` mapping. -/
def toolsOfPaths (spec : Yaml) :
    List (String × Yaml) → Except PyError (List ToolDef)
  | [] => .ok []
  | (path, path_item) :: rest =>
      eseq (pyItems path_item) (fun methodKvs =>
        eseq (toolsOfPathItem spec path methodKvs) (fun hd =>
          eseq (toolsOfPaths spec rest) (fun tl => .ok (hd ++ tl))))

/-- Embedding of `generators.generate_tool_definitions` (generators.py
lines 13-32), kept at the level of the interpolated tool data (the
`tools` list before the final string join). -/
def generate_tool_definitions_list (spec : Yaml) : Except PyError (List ToolDef) :=
  eseq (Yaml.get spec "paths" (.map [])) (fun paths =>
    eseq (pyItems paths) (fun pathKvs => toolsOfPaths spec pathKvs))

/-- The string actually returned by `generators.generate_tool_definitions`:
the rendered tool blocks joined by newlines. -/
def generate_tool_definitions (spec : Yaml) : Except PyError String :=
  eseq (generate_tool_definitions_list spec) (fun ts =>
    .ok (String.intercalate "\n" (ts.map ToolDef.render)))

/-- A document exercising all three branches of claim C1: an eligible
`get` operation, a `post` operation without `operationId`, and a `head`
operation outside the allowed method set. -/
def specW1 : Yaml := .map
  [("paths", .map
     [("/items", .map
        [("get", .map [("operationId", .str "getItems")]),
         ("post", .map [("summary", .str "no id")]),
         ("head", .map [("operationId", .str "headOp")])])])]

/-- A document whose only operation carries an explicitly empty
`operationId` string. -/
def specEmptyId : Yaml := .map
  [("paths", .map [("/x", .map [("get", .map [("operationId", .str "")])])])]

/-- A single-operation document with a non-empty operation id. -/
def specW2 : Yaml := .map
  [("paths", .map [("/y", .map [("get", .map [("operationId", .str "op1")])])])]

/-- A document in which a reference path crosses a list: the second
segment indexes the list value at key `a` with a string. -/
def specRefTypeError : Yaml := .map
  [("paths", .map
     [("/x", .map
        [("get", .map
           [("operationId", .str "op"),
            ("parameters", .list [.map [("$ref", .str "#/a/b")]])])])]),
   ("a", .list [.str "z"])]

/-- A document against which a reference misses its final key. -/
def specRefMissing : Yaml := .map [("a", .map [])]

/-- A document holding one reusable parameter under
`components.parameters`. -/
def specRefParam : Yaml := .map
  [("components", .map
     [("parameters", .map
        [("P", .map [("name", .str "id"),
                     ("schema", .map [("type", .str "integer")])])])])]

/-- The data interpolated into the resource templates: one API-info
resource (title, version, description) and one resource per schema
component (name and schema body; the textual YAML dump of the body is not
modelled, the body is carried structurally). -/
inductive ResourceDef where
  | apiInfo (title version description : String)
  | schemaRes (name : String) (schema : Yaml)

/-- The uri interpolated into the `mcp.resource` decorator of each
resource block. -/
def ResourceDef.uri : ResourceDef → String
  | .apiInfo _ _ _ => "api://info"
  | .schemaRes n _ => "schema://" ++ n

/-- Recognizer for the API-info resource. -/
def isApiInfo : ResourceDef → Bool
  | .apiInfo _ _ _ => true
  | .schemaRes _ _ => false

/-- Embedding of `generators._generate_api_info_resource` (generators.py
lines 177-203): title, version and description are pulled from the
`info` block with fixed fallbacks, and the description is sanitized. -/
def _generate_api_info_resource (spec : Yaml) : Except PyError ResourceDef :=
  eseq (Yaml.get spec "info" (.map [])) (fun info =>
    eseq (Yaml.get info "title" (.str "API")) (fun titlev =>
      eseq (pyStr titlev) (fun api_title =>
        eseq (Yaml.get info "version" (.str "1.0.0")) (fun versionv =>
          eseq (pyStr versionv) (fun api_version =>
            eseq (Yaml.get info "description" (.str "API description")) (fun descv =>
              eseq (sanitizeYaml descv) (fun api_description =>
                .ok (.apiInfo api_title api_version api_description))))))))

/-- Embedding of `generators._generate_schema_resources` (generators.py
lines 206-231): one resource per entry of `components.schemas`, in
document order. -/
def _generate_schema_resources (spec : Yaml) : Except PyError (List ResourceDef) :=
  eseq (Yaml.get spec "components" (.map [])) (fun comps =>
    eseq (Yaml.get comps "schemas" (.map [])) (fun schemas =>
      eseq (pyItems schemas) (fun kvs =>
        .ok (kvs.map (fun e => .schemaRes e.1 e.2)))))

/-- Embedding of `generators.generate_resource_definitions`
(generators.py lines 154-174): the API-info resource first, then the
schema resources. -/
def generate_resource_definitions_list (spec : Yaml) :
    Except PyError (List ResourceDef) :=
  eseq (_generate_api_info_resource spec) (fun info_resource =>
    eseq (_generate_schema_resources spec) (fun schema_resources =>
      .ok (info_resource :: schema_resources)))

/-- Embedding of the fallback `generate_resource_definitions` of
generator.py (lines 173-219) and of the identical
`MCPGenerator.generate_resource_definitions` of mcp_generator.py (lines
117-158): the only difference from the modular core is that the
description pulled from the `info` block is interpolated raw, without
passing through `sanitize_description`. -/
def legacy_generate_resource_definitions_list (spec : Yaml) :
    Except PyError (List ResourceDef) :=
  eseq (Yaml.get spec "info" (.map [])) (fun info =>
    eseq (Yaml.get info "title" (.str "API")) (fun titlev =>
      eseq (pyStr titlev) (fun api_title =>
        eseq (Yaml.get info "version" (.str "1.0.0")) (fun versionv =>
          eseq (pyStr versionv) (fun api_version =>
            eseq (Yaml.get info "description" (.str "API description")) (fun descv =>
              eseq (pyStr descv) (fun api_description =>
                eseq (Yaml.get spec "components" (.map [])) (fun comps =>
                  eseq (Yaml.get comps "schemas" (.map [])) (fun schemas =>
                    eseq (pyItems schemas) (fun kvs =>
                      .ok (ResourceDef.apiInfo api_title api_version api_description ::
                           kvs.map (fun e => .schemaRes e.1 e.2))))))))))))

/-- A document with a titled info block and one schema component. -/
def specRes : Yaml := .map
  [("info", .map [("title", .str "T")]),
   ("components", .map [("schemas", .map [("Item", .map [("type", .str "object")])])])]

/-- A document whose info description contains a double quote. -/
def specQuoteDesc : Yaml := .map
  [("info", .map [("description", .str "say \"hi\"")])]

/-- Outcome of locating, opening, reading and decoding the input file:
the path does not exist, the bytes cannot be read or decoded, or the
decoded text is available. -/
inductive FileInput where
  | missing
  | unreadable
  | content (text : String)

/-- Outcome of the external `yaml.safe_load` call on the file's text. -/
inductive ParseOutcome where
  | yamlError
  | value (v : Yaml)

/-- The three fatal loader conditions named by the specification. -/
inductive FailCond where
  | notFound
  | readError
  | parseError
deriving DecidableEq, Repr

/-- Result of document loading: the parsed top-level mapping, or a fatal
condition with the process exit code. -/
inductive LoadResult where
  | ok (entries : List (String × Yaml))
  | fatal (cond : FailCond) (exitCode : Nat)

def Yaml.isMapB : Yaml → Bool
  | .map _ => true
  | _ => false

/-- Embedding of `parser.parse_openapi_spec` (parser.py lines 13-44),
with the file system and the YAML library abstracted as oracles: `file`
is the outcome of locating/reading/decoding the file and `yamlParse` the
outcome of `yaml.safe_load` on its decoded text.  A missing path prints a
diagnostic and exits with code 1; an unreadable or undecodable file stops
the run with a nonzero status (in the source a read error is caught and
reported while a decode error escapes as an uncaught exception — both
print a diagnostic and end the process with status 1, which the model
folds into the same fatal outcome); a YAML error or a non-mapping
top-level value prints a diagnostic and exits with code 1; otherwise the
parsed mapping is returned. -/
def parse_openapi_spec (file : FileInput)
    (yamlParse : String → ParseOutcome) : LoadResult :=
  match file with
  | .missing => .fatal .notFound 1
  | .unreadable => .fatal .readError 1
  | .content text =>
      match yamlParse text with
      | .yamlError => .fatal .parseError 1
      | .value (Yaml.map kvs) => .ok kvs
      | .value _ => .fatal .parseError 1

theorem sanitizeYaml_str (s : String) :
    sanitizeYaml (Yaml.str s) = Except.ok (sanitize_description s) := by
  by_cases h : s = ""
  · subst h; rfl
  · simp [sanitizeYaml, Yaml.truthy, h, sanitize_description]

/-- Characters in the output of `replaceNewlines` are the image of the
input characters under the newline-to-space substitution. -/
theorem mem_replaceNewlines {c : Char} {l : List Char}
    (h : c ∈ replaceNewlines l) :
    c = ' ' ∨ (c ∈ l ∧ c ≠ '\n') := by
  unfold replaceNewlines at h
  obtain ⟨a, ha, he⟩ := List.mem_map.mp h
  by_cases hn : a = '\n'
  · subst hn; simp at he; exact Or.inl he.symm
  · simp [hn] at he; subst he; exact Or.inr ⟨ha, hn⟩

theorem replaceNewlines_no_newline (l : List Char) :
    '\n' ∉ replaceNewlines l := by
  intro h
  rcases mem_replaceNewlines h with h1 | h2
  · exact absurd h1 (by decide)
  · exact h2.2 rfl

theorem replaceNewlines_no_quote {l : List Char} (h : '"' ∉ l) :
    '"' ∉ replaceNewlines l := by
  intro hm
  rcases mem_replaceNewlines hm with h1 | h2
  · exact absurd h1 (by decide)
  · exact h (h2.1)

theorem replaceNewlines_of_no_newline {l : List Char} (h : '\n' ∉ l) :
    replaceNewlines l = l := by
  induction l with
  | nil => rfl
  | cons c cs ih =>
      have hc : ¬ c = '\n' := fun e => h (e ▸ List.mem_cons_self c cs)
      simp only [replaceNewlines, List.map_cons, if_neg hc]
      have := ih (fun hm => h (List.mem_cons_of_mem c hm))
      simpa [replaceNewlines] using this

theorem escapeQuotes_of_no_quote {l : List Char} (h : '"' ∉ l) :
    escapeQuotes l = l := by
  induction l with
  | nil => rfl
  | cons c cs ih =>
      have hc : ¬ c = '"' := fun e => h (e ▸ List.mem_cons_self c cs)
      simp only [escapeQuotes, if_neg hc]
      exact congrArg (c :: ·) (ih (fun hm => h (List.mem_cons_of_mem c hm)))

/-- Claim C4 counterexample: sanitization is not idempotent.  On the
one-character string consisting of a double quote, a second application
escapes the backslash-quote produced by the first one again. -/
theorem sanitize_description_not_idempotent :
    sanitize_description (sanitize_description "\"") ≠
      sanitize_description "\"" := by decide

/-- Claim C4 (amended): sanitization is a total function on strings which
satisfies the three stated examples, and it is idempotent on every string
that contains no double quote character (on a string containing a double
quote a second application escapes the inserted backslash-quote again, so
full idempotence fails). -/
theorem sanitize_description_examples_and_partial_idempotence :
    sanitize_description "a\nb" = "a b" ∧
    sanitize_description "say \"hi\"" = "say \\\"hi\\\"" ∧
    sanitize_description "" = "" ∧
    ∀ s : String, '"' ∉ s.data →
      sanitize_description (sanitize_description s) = sanitize_description s := by
  refine ⟨by decide, by decide, rfl, ?_⟩
  intro s hq
  by_cases hs : s = ""
  · subst hs; rfl
  · have hesc : escapeQuotes (replaceNewlines s.data) = replaceNewlines s.data :=
      escapeQuotes_of_no_quote (replaceNewlines_no_quote hq)
    simp only [sanitize_description, if_neg hs, hesc]
    set R := replaceNewlines s.data with hR
    have hRne : R ≠ [] := by
      intro h0
      apply hs
      have h0' : s.data.map (fun c => if c = '\n' then ' ' else c) = [] := by
        rw [show s.data.map (fun c => if c = '\n' then ' ' else c) =
              replaceNewlines s.data from rfl, ← hR]
        exact h0
      have : s.data = [] := List.map_eq_nil_iff.mp h0'
      cases s with
      | mk data => simpa using congrArg String.mk this
    have hmkne : String.mk R ≠ "" := by
      intro h
      exact hRne (congrArg String.data h)
    have hdata : (String.mk R).data = R := rfl
    simp only [sanitize_description, if_neg hmkne, hdata]
    have h1 : replaceNewlines R = R :=
      replaceNewlines_of_no_newline (replaceNewlines_no_newline s.data)
    rw [h1, escapeQuotes_of_no_quote (replaceNewlines_no_quote hq)]

/-- Witness for the amended claim C4 at a concrete quote-free string. -/
theorem sanitize_description_partial_idempotence_witness :
    sanitize_description (sanitize_description "a\nb") =
      sanitize_description "a\nb" :=
  sanitize_description_examples_and_partial_idempotence.2.2.2 "a\nb" (by decide)

@[simp] theorem eseq_ok {a b : Type} (v : a) (f : a → Except PyError b) :
    eseq (Except.ok v) f = f v := rfl

@[simp] theorem eseq_error {a b : Type} (e : PyError) (f : a → Except PyError b) :
    eseq (Except.error e) f = Except.error e := rfl

theorem eseq_eq_ok {a b : Type} {x : Except PyError a}
    {f : a → Except PyError b} {w : b}
    (h : eseq x f = Except.ok w) : ∃ v, x = Except.ok v ∧ f v = Except.ok w := by
  cases x with
  | ok v => exact ⟨v, rfl, h⟩
  | error e => exact Except.noConfusion h

/-- Claim C5: the inferred parameter type is determined solely by the
declared schema type through the fixed table `integer → int`,
`number → float`, `boolean → bool`, with default `str` for an absent
schema, an absent type field, or any other declared type, independently
of all other fields of the parameter. -/
theorem _get_param_type_table (pkvs : List (String × Yaml)) :
    (dictLookup "schema" pkvs = none →
      _get_param_type (Yaml.map pkvs) = Except.ok "str") ∧
    (∀ skvs, dictLookup "schema" pkvs = some (Yaml.map skvs) →
      (dictLookup "type" skvs = some (Yaml.str "integer") →
        _get_param_type (Yaml.map pkvs) = Except.ok "int") ∧
      (dictLookup "type" skvs = some (Yaml.str "number") →
        _get_param_type (Yaml.map pkvs) = Except.ok "float") ∧
      (dictLookup "type" skvs = some (Yaml.str "boolean") →
        _get_param_type (Yaml.map pkvs) = Except.ok "bool") ∧
      (∀ v, dictLookup "type" skvs = some v →
        v ≠ Yaml.str "integer" → v ≠ Yaml.str "number" →
        v ≠ Yaml.str "boolean" →
        _get_param_type (Yaml.map pkvs) = Except.ok "str") ∧
      (dictLookup "type" skvs = none →
        _get_param_type (Yaml.map pkvs) = Except.ok "str")) := by
  constructor
  · intro h
    simp [_get_param_type, pyContains, h]
  · intro skvs h
    have hbase :
        _get_param_type (Yaml.map pkvs) =
          Except.ok (schemaTypeToPy ((dictLookup "type" skvs).getD (Yaml.str "string"))) := by
      simp [_get_param_type, pyContains, pyIndex, h, Yaml.get]
    refine ⟨?_, ?_, ?_, ?_, ?_⟩
    · intro ht; rw [hbase, ht]; rfl
    · intro ht; rw [hbase, ht]; rfl
    · intro ht; rw [hbase, ht]; rfl
    · intro v ht h1 h2 h3
      rw [hbase, ht]
      cases v with
      | str s =>
          have e1 : ¬ s = "integer" := fun e => h1 (by rw [e])
          have e2 : ¬ s = "number" := fun e => h2 (by rw [e])
          have e3 : ¬ s = "boolean" := fun e => h3 (by rw [e])
          simp [schemaTypeToPy, e1, e2, e3]
      | null => rfl
      | bool b => rfl
      | int n => rfl
      | list xs => rfl
      | map kvs => rfl
    · intro ht; rw [hbase, ht]; rfl

/-- Witness for claim C5 at a concrete parameter carrying an integer
schema next to unrelated fields. -/
theorem _get_param_type_table_witness :
    _get_param_type (Yaml.map
      [("name", Yaml.str "limit"), ("in", Yaml.str "query"),
       ("schema", Yaml.map [("type", Yaml.str "integer")])]) =
      Except.ok "int" :=
  ((_get_param_type_table
      [("name", Yaml.str "limit"), ("in", Yaml.str "query"),
       ("schema", Yaml.map [("type", Yaml.str "integer")])]).2
    [("type", Yaml.str "integer")] rfl).1 rfl

theorem pyIndex_ok {v : Yaml} {k : String} {w : Yaml}
    (h : pyIndex v k = Except.ok w) :
    ∃ kvs, v = Yaml.map kvs ∧ dictLookup k kvs = some w := by
  cases v with
  | map kvs =>
      refine ⟨kvs, rfl, ?_⟩
      simp only [pyIndex] at h
      cases hd : dictLookup k kvs with
      | some u => rw [hd] at h; exact congrArg some (Except.ok.inj h)
      | none => rw [hd] at h; exact Except.noConfusion h
  | null => exact Except.noConfusion h
  | bool b => exact Except.noConfusion h
  | int n => exact Except.noConfusion h
  | str s => exact Except.noConfusion h
  | list xs => exact Except.noConfusion h

/-- Inversion of a successful `_generate_tool`: an emitted tool block
carries the path and method it was generated for, and its id is the
rendering of the operation's `operationId` value. -/
theorem _generate_tool_ok_some {spec : Yaml} {p m : String} {op : Yaml} {t : ToolDef}
    (h : _generate_tool spec p m op = Except.ok (some t)) :
    t.path = p ∧ t.method = m ∧
    ∃ okvs idv, op = Yaml.map okvs ∧
      dictLookup "operationId" okvs = some idv ∧
      pyStr idv = Except.ok t.operation_id := by
  unfold _generate_tool at h
  obtain ⟨hasId, hc, h⟩ := eseq_eq_ok h
  cases hasId with
  | false =>
      simp only [Bool.false_eq_true, if_false] at h
      exact Option.noConfusion (Except.ok.inj h)
  | true =>
      simp only [if_true] at h
      obtain ⟨idv, hidx, h⟩ := eseq_eq_ok h
      obtain ⟨oid, hstr, h⟩ := eseq_eq_ok h
      obtain ⟨descv, hget, h⟩ := eseq_eq_ok h
      obtain ⟨d, hsan, h⟩ := eseq_eq_ok h
      obtain ⟨ps, hps, h⟩ := eseq_eq_ok h
      have ht : (⟨oid, d, m, p, ps ++ ["ctx: Context"]⟩ : ToolDef) = t :=
        Option.some.inj (Except.ok.inj h)
      obtain ⟨okvs, hmap, hl⟩ := pyIndex_ok hidx
      subst ht
      exact ⟨rfl, rfl, okvs, idv, hmap, hl, hstr⟩

/-- An operation mapping without an `operationId` key is skipped. -/
theorem _generate_tool_skip {spec : Yaml} {p m : String}
    {okvs : List (String × Yaml)}
    (h : dictLookup "operationId" okvs = none) :
    _generate_tool spec p m (Yaml.map okvs) = Except.ok none := by
  unfold _generate_tool
  simp [pyContains, h]

/-- A successful `_generate_tool` on an operation mapping that has an
`operationId` key emits a tool block. -/
theorem _generate_tool_ok_isSome {spec : Yaml} {p m : String}
    {okvs : List (String × Yaml)} {idv : Yaml} {o : Option ToolDef}
    (hl : dictLookup "operationId" okvs = some idv)
    (h : _generate_tool spec p m (Yaml.map okvs) = Except.ok o) :
    ∃ t, o = some t := by
  unfold _generate_tool at h
  rw [show pyContains "operationId" (Yaml.map okvs) = Except.ok true by
        simp [pyContains, hl]] at h
  simp only [eseq_ok, if_true] at h
  obtain ⟨idv2, hidx, h⟩ := eseq_eq_ok h
  obtain ⟨oid, hstr, h⟩ := eseq_eq_ok h
  obtain ⟨descv, hget, h⟩ := eseq_eq_ok h
  obtain ⟨d, hsan, h⟩ := eseq_eq_ok h
  obtain ⟨ps, hps, h⟩ := eseq_eq_ok h
  exact ⟨_, (Except.ok.inj h).symm⟩

/-- Every tool block produced while processing one path item comes from an
allowed-method entry of that item. -/
theorem toolsOfPathItem_mem {spec : Yaml} {p : String}
    {kvs : List (String × Yaml)} {l : List ToolDef}
    (h : toolsOfPathItem spec p kvs = Except.ok l) {t : ToolDef} (ht : t ∈ l) :
    ∃ op, (t.method, op) ∈ kvs ∧ allowedMethods.contains t.method = true ∧
      _generate_tool spec p t.method op = Except.ok (some t) := by
  induction kvs generalizing l with
  | nil =>
      simp only [toolsOfPathItem] at h
      rw [← Except.ok.inj h] at ht
      cases ht
  | cons e rest ih =>
      obtain ⟨m, op⟩ := e
      rw [toolsOfPathItem] at h
      obtain ⟨o, ho, h⟩ := eseq_eq_ok h
      obtain ⟨tl, htl, h⟩ := eseq_eq_ok h
      rw [← Except.ok.inj h] at ht
      rcases List.mem_append.mp ht with hh | hh
      · by_cases hal : allowedMethods.contains m
        · rw [if_pos hal] at ho
          cases o with
          | none => cases hh
          | some t2 =>
              have ht2 : t2 = t := by
                cases hh with
                | head => rfl
                | tail _ hmem => cases hmem
              rw [ht2] at ho
              have hm : t.method = m := (_generate_tool_ok_some ho).2.1
              exact ⟨op, by rw [hm]; exact List.mem_cons_self _ _,
                     by rw [hm]; exact hal, by rw [hm]; exact ho⟩
        · rw [if_neg hal] at ho
          rw [← Except.ok.inj ho] at hh
          cases hh
      · obtain ⟨op2, hmem, hal, hgt⟩ := ih htl hh
        exact ⟨op2, List.mem_cons_of_mem _ hmem, hal, hgt⟩

/-- No tool block with a method absent from a path item is produced while
processing that item. -/
theorem toolsOfPathItem_countP_absent {spec : Yaml} {p : String}
    {kvs : List (String × Yaml)} {l : List ToolDef} {m : String}
    (h : toolsOfPathItem spec p kvs = Except.ok l)
    (hm : m ∉ kvs.map Prod.fst) :
    l.countP (fun t => t.method == m) = 0 := by
  rw [List.countP_eq_zero]
  intro t ht hp
  obtain ⟨op, hmem, _, _⟩ := toolsOfPathItem_mem h ht
  have he : t.method = m := by simpa using hp
  exact hm (he ▸ List.mem_map_of_mem Prod.fst hmem)

/-- Counting lemma for one path item with distinct method keys: an entry
of the item contributes exactly one tool block (whose data can be traced
back to the operation) when its method is allowed and the operation has an
`operationId` key, and contributes none otherwise. -/
theorem toolsOfPathItem_countP {spec : Yaml} {p : String}
    {kvs : List (String × Yaml)} {l : List ToolDef}
    (hnd : (kvs.map Prod.fst).Nodup)
    (h : toolsOfPathItem spec p kvs = Except.ok l)
    {m : String} {op : Yaml} (hmem : (m, op) ∈ kvs) :
    (allowedMethods.contains m = false →
       l.countP (fun t => t.method == m) = 0) ∧
    (∀ okvs, op = Yaml.map okvs →
       (dictLookup "operationId" okvs = none →
          l.countP (fun t => t.method == m) = 0) ∧
       (∀ idv, dictLookup "operationId" okvs = some idv →
          allowedMethods.contains m = true →
          ∃ t, t ∈ l ∧ t.method = m ∧ t.path = p ∧
            pyStr idv = Except.ok t.operation_id ∧
            l.countP (fun t2 => t2.method == m) = 1)) := by
  induction kvs generalizing l with
  | nil => cases hmem
  | cons e rest ih =>
      obtain ⟨m', op'⟩ := e
      rw [toolsOfPathItem] at h
      obtain ⟨o, ho, h⟩ := eseq_eq_ok h
      obtain ⟨tl, htl, h⟩ := eseq_eq_ok h
      have hl : o.toList ++ tl = l := Except.ok.inj h
      have hnd1 : m' ∉ rest.map Prod.fst := (List.nodup_cons.mp (by simpa using hnd)).1
      have hnd2 : (rest.map Prod.fst).Nodup := (List.nodup_cons.mp (by simpa using hnd)).2
      rw [← hl, List.countP_append]
      rcases List.mem_cons.mp hmem with hh | hh
      · -- the entry under scrutiny is the head of the path item
        have hm : m = m' := congrArg Prod.fst hh
        have hop : op = op' := congrArg Prod.snd hh
        subst hm
        subst hop
        have htl0 : tl.countP (fun t => t.method == m) = 0 :=
          toolsOfPathItem_countP_absent htl hnd1
        constructor
        · intro hal
          rw [hal] at ho
          simp only [Bool.false_eq_true, if_false] at ho
          have : o = none := (Except.ok.inj ho).symm
          subst this
          simp [htl0]
        · intro okvs hok
          subst hok
          constructor
          · intro hnone
            by_cases hal : allowedMethods.contains m
            · rw [if_pos hal, _generate_tool_skip hnone] at ho
              have : o = none := (Except.ok.inj ho).symm
              subst this
              simp [htl0]
            · rw [if_neg hal] at ho
              have : o = none := (Except.ok.inj ho).symm
              subst this
              simp [htl0]
          · intro idv hsome hal
            rw [if_pos hal] at ho
            obtain ⟨t, hto⟩ := _generate_tool_ok_isSome hsome ho
            subst hto
            obtain ⟨hpath, hmeth, okvs2, idv2, hmap2, hlook2, hstr2⟩ :=
              _generate_tool_ok_some ho
            have hkv : okvs2 = okvs := by injection hmap2.symm
            subst hkv
            have hid : idv2 = idv := by
              rw [hlook2] at hsome
              exact Option.some.inj hsome
            subst hid
            refine ⟨t, ?_, hmeth, hpath, hstr2, ?_⟩
            · exact List.mem_append_left _ (by simp)
            · simp [htl0, hmeth]
      · -- the entry under scrutiny lies in the tail of the path item
        have hmm : m ≠ m' := by
          intro e
          exact hnd1 (e ▸ List.mem_map_of_mem Prod.fst hh)
        have hhd0 : (o.toList).countP (fun t => t.method == m) = 0 := by
          cases o with
          | none => rfl
          | some t2 =>
              by_cases hal : allowedMethods.contains m'
              · rw [if_pos hal] at ho
                have := (_generate_tool_ok_some ho).2.1
                simp [List.countP_cons, this, hmm.symm]
              · rw [if_neg hal] at ho
                exact Option.noConfusion (Except.ok.inj ho)
        obtain ⟨ihA, ihB⟩ := ih hnd2 htl hh
        refine ⟨?_, ?_⟩
        · intro hal
          rw [hhd0, ihA hal]
        · intro okvs hok
          obtain ⟨ihB1, ihB2⟩ := ihB okvs hok
          refine ⟨?_, ?_⟩
          · intro hnone
            rw [hhd0, ihB1 hnone]
          · intro idv hsome hal
            obtain ⟨t, htmem, hmeth, hpath, hstr2, hcnt⟩ := ihB2 idv hsome hal
            refine ⟨t, ?_, hmeth, hpath, hstr2, ?_⟩
            · exact List.mem_append_right _ htmem
            · rw [hhd0, hcnt]

theorem countP_eq_of_forall {a : Type} {pf pg : a → Bool} :
    ∀ {l : List a}, (∀ x ∈ l, pf x = pg x) → l.countP pf = l.countP pg := by
  intro l
  induction l with
  | nil => intro _; rfl
  | cons x rest ih =>
      intro h
      rw [List.countP_cons, List.countP_cons, h x (List.mem_cons_self x rest),
          ih (fun y hy => h y (List.mem_cons_of_mem x hy))]

/-- Every tool block in the full output comes from an allowed-method
operation entry of some path item of the `paths` mapping. -/
theorem toolsOfPaths_mem {spec : Yaml} {pkvs : List (String × Yaml)}
    {ts : List ToolDef} (h : toolsOfPaths spec pkvs = Except.ok ts)
    {t : ToolDef} (ht : t ∈ ts) :
    ∃ pi mkvs op, (t.path, pi) ∈ pkvs ∧ pyItems pi = Except.ok mkvs ∧
      (t.method, op) ∈ mkvs ∧ allowedMethods.contains t.method = true ∧
      _generate_tool spec t.path t.method op = Except.ok (some t) := by
  induction pkvs generalizing ts with
  | nil =>
      simp only [toolsOfPaths] at h
      rw [← Except.ok.inj h] at ht
      cases ht
  | cons e rest ih =>
      obtain ⟨p, pi⟩ := e
      rw [toolsOfPaths] at h
      obtain ⟨mkvs, hpi, h⟩ := eseq_eq_ok h
      obtain ⟨hd, hhd, h⟩ := eseq_eq_ok h
      obtain ⟨tl, htl, h⟩ := eseq_eq_ok h
      rw [← Except.ok.inj h] at ht
      rcases List.mem_append.mp ht with hh | hh
      · obtain ⟨op, hmem, hal, hgt⟩ := toolsOfPathItem_mem hhd hh
        have hp : t.path = p := (_generate_tool_ok_some hgt).1
        refine ⟨pi, mkvs, op, ?_, hpi, hmem, hal, ?_⟩
        · rw [hp]; exact List.mem_cons_self _ _
        · rw [hp]; exact hgt
      · obtain ⟨pi2, mkvs2, op2, hmem, hpi2, hv⟩ := ih htl hh
        exact ⟨pi2, mkvs2, op2, List.mem_cons_of_mem _ hmem, hpi2, hv⟩

/-- No tool block is produced for a path absent from the `paths`
mapping. -/
theorem toolsOfPaths_countP_absent {spec : Yaml} {pkvs : List (String × Yaml)}
    {ts : List ToolDef} {p m : String}
    (h : toolsOfPaths spec pkvs = Except.ok ts)
    (hp : p ∉ pkvs.map Prod.fst) :
    ts.countP (fun t => t.path == p && t.method == m) = 0 := by
  rw [List.countP_eq_zero]
  intro t ht hpred
  obtain ⟨pi, mkvs, op, hmem, _, _, _, _⟩ := toolsOfPaths_mem h ht
  have he : t.path = p := by
    have := (Bool.and_eq_true _ _).mp hpred
    simpa using this.1
  exact hp (he ▸ List.mem_map_of_mem Prod.fst hmem)

/-- Counting lemma at the level of the whole `paths` mapping, with
distinct path keys and distinct method keys in the path item under
scrutiny. -/
theorem toolsOfPaths_countP {spec : Yaml} {pkvs : List (String × Yaml)}
    {ts : List ToolDef}
    (hnd : (pkvs.map Prod.fst).Nodup)
    (h : toolsOfPaths spec pkvs = Except.ok ts)
    {p : String} {mkvs : List (String × Yaml)}
    (hpi : (p, Yaml.map mkvs) ∈ pkvs)
    (hndm : (mkvs.map Prod.fst).Nodup)
    {m : String} {op : Yaml} (hmem : (m, op) ∈ mkvs) :
    (allowedMethods.contains m = false →
       ts.countP (fun t => t.path == p && t.method == m) = 0) ∧
    (∀ okvs, op = Yaml.map okvs →
       (dictLookup "operationId" okvs = none →
          ts.countP (fun t => t.path == p && t.method == m) = 0) ∧
       (∀ idv, dictLookup "operationId" okvs = some idv →
          allowedMethods.contains m = true →
          ∃ t, t ∈ ts ∧ t.method = m ∧ t.path = p ∧
            pyStr idv = Except.ok t.operation_id ∧
            ts.countP (fun t2 => t2.path == p && t2.method == m) = 1)) := by
  induction pkvs generalizing ts with
  | nil => cases hpi
  | cons e rest ih =>
      obtain ⟨p', pi'⟩ := e
      rw [toolsOfPaths] at h
      obtain ⟨mkvs', hpi', h⟩ := eseq_eq_ok h
      obtain ⟨hd, hhd, h⟩ := eseq_eq_ok h
      obtain ⟨tl, htl, h⟩ := eseq_eq_ok h
      have hl : hd ++ tl = ts := Except.ok.inj h
      have hnd1 : p' ∉ rest.map Prod.fst := (List.nodup_cons.mp (by simpa using hnd)).1
      have hnd2 : (rest.map Prod.fst).Nodup := (List.nodup_cons.mp (by simpa using hnd)).2
      rw [← hl, List.countP_append]
      rcases List.mem_cons.mp hpi with hh | hh
      · -- the path under scrutiny is the head entry
        have hp : p = p' := congrArg Prod.fst hh
        have hpv : Yaml.map mkvs = pi' := congrArg Prod.snd hh
        subst hp
        rw [← hpv] at hpi'
        have hmk : mkvs' = mkvs := Except.ok.inj hpi'.symm
        subst hmk
        have htl0 : tl.countP (fun t => t.path == p && t.method == m) = 0 :=
          toolsOfPaths_countP_absent htl hnd1
        have hdpath : ∀ t ∈ hd, t.path = p := by
          intro t htm
          obtain ⟨op2, _, _, hgt⟩ := toolsOfPathItem_mem hhd htm
          exact (_generate_tool_ok_some hgt).1
        have hkey : hd.countP (fun t => t.path == p && t.method == m) =
            hd.countP (fun t => t.method == m) := by
          apply countP_eq_of_forall
          intro t htm
          simp [hdpath t htm]
        obtain ⟨cA, cB⟩ := toolsOfPathItem_countP hndm hhd hmem
        constructor
        · intro hal
          rw [htl0, hkey, cA hal]
        · intro okvs hok
          obtain ⟨cB1, cB2⟩ := cB okvs hok
          constructor
          · intro hnone
            rw [htl0, hkey, cB1 hnone]
          · intro idv hsome hal
            obtain ⟨t, htmem, hmeth, hpath, hstr, hcnt⟩ := cB2 idv hsome hal
            refine ⟨t, List.mem_append_left _ htmem, hmeth, hpath, hstr, ?_⟩
            rw [htl0, hkey, hcnt]
      · -- the path under scrutiny lies in the tail
        have hpp : p ≠ p' := by
          intro e
          exact hnd1 (e ▸ List.mem_map_of_mem Prod.fst hh)
        have hhd0 : hd.countP (fun t => t.path == p && t.method == m) = 0 := by
          rw [List.countP_eq_zero]
          intro t htm hpred
          obtain ⟨op2, _, _, hgt⟩ := toolsOfPathItem_mem hhd htm
          have h1 : t.path = p' := (_generate_tool_ok_some hgt).1
          have h2 : t.path = p := by
            have := (Bool.and_eq_true _ _).mp hpred
            simpa using this.1
          exact hpp (h2 ▸ h1 ▸ rfl)
        obtain ⟨ihA, ihB⟩ := ih hnd2 htl hh
        refine ⟨?_, ?_⟩
        · intro hal
          rw [hhd0, ihA hal]
        · intro okvs hok
          obtain ⟨ihB1, ihB2⟩ := ihB okvs hok
          refine ⟨?_, ?_⟩
          · intro hnone
            rw [hhd0, ihB1 hnone]
          · intro idv hsome hal
            obtain ⟨t, htmem, hmeth, hpath, hstr, hcnt⟩ := ihB2 idv hsome hal
            refine ⟨t, List.mem_append_right _ htmem, hmeth, hpath, hstr, ?_⟩
            rw [hhd0, hcnt]

/-- Reduction of the top-level tool generator to the paths loop. -/
theorem generate_tool_definitions_list_eq {spec : Yaml}
    {skvs pkvs : List (String × Yaml)} {ts : List ToolDef}
    (hs : spec = Yaml.map skvs)
    (hp : dictLookup "paths" skvs = some (Yaml.map pkvs))
    (hts : generate_tool_definitions_list spec = Except.ok ts) :
    toolsOfPaths spec pkvs = Except.ok ts := by
  unfold generate_tool_definitions_list at hts
  rw [hs, show Yaml.get (Yaml.map skvs) "paths" (Yaml.map []) =
        Except.ok (Yaml.map pkvs) by simp [Yaml.get, hp]] at hts
  rw [eseq_ok, show pyItems (Yaml.map pkvs) = Except.ok pkvs from rfl,
      eseq_ok] at hts
  rw [hs]
  exact hts

/-- Claim C1: for every document whose `paths` value is a mapping (with
the distinct keys of a parsed mapping), every operation entry with a
method key in the allowed set and an `operationId` yields exactly one
tool block bearing that id, that path and that method, while an entry
lacking `operationId` or using a method key outside the allowed set
yields no tool block for its (path, method) pair. -/
theorem generate_tool_definitions_per_operation
    (spec : Yaml) (skvs pkvs : List (String × Yaml)) (ts : List ToolDef)
    (hs : spec = Yaml.map skvs)
    (hp : dictLookup "paths" skvs = some (Yaml.map pkvs))
    (hnd : (pkvs.map Prod.fst).Nodup)
    (hts : generate_tool_definitions_list spec = Except.ok ts)
    (p : String) (mkvs : List (String × Yaml))
    (hpi : (p, Yaml.map mkvs) ∈ pkvs)
    (hndm : (mkvs.map Prod.fst).Nodup)
    (m : String) (op : Yaml) (hop : (m, op) ∈ mkvs) :
    (∀ okvs oid, op = Yaml.map okvs →
       dictLookup "operationId" okvs = some (Yaml.str oid) →
       allowedMethods.contains m = true →
       ts.countP (fun t => t.path == p && t.method == m) = 1 ∧
       ∃ t, t ∈ ts ∧ t.operation_id = oid ∧ t.path = p ∧ t.method = m) ∧
    (∀ okvs, op = Yaml.map okvs → dictLookup "operationId" okvs = none →
       ts.countP (fun t => t.path == p && t.method == m) = 0) ∧
    (allowedMethods.contains m = false →
       ts.countP (fun t => t.path == p && t.method == m) = 0) := by
  have hts' : toolsOfPaths spec pkvs = Except.ok ts :=
    generate_tool_definitions_list_eq hs hp hts
  obtain ⟨cA, cB⟩ := toolsOfPaths_countP hnd hts' hpi hndm hop
  refine ⟨?_, ?_, cA⟩
  · intro okvs oid hok hid hal
    obtain ⟨cB1, cB2⟩ := cB okvs hok
    obtain ⟨t, htmem, hmeth, hpath, hstr, hcnt⟩ := cB2 (Yaml.str oid) hid hal
    exact ⟨hcnt, t, htmem, (Except.ok.inj hstr).symm, hpath, hmeth⟩
  · intro okvs hok hnone
    exact (cB okvs hok).1 hnone

/-- Witness for claim C1 on `specW1`: the eligible operation yields
exactly one tool block with its id, path and method. -/
theorem generate_tool_definitions_per_operation_witness :
    ([(⟨"getItems", "GET /items", "get", "/items", ["ctx: Context"]⟩ : ToolDef)]).countP
        (fun t => t.path == "/items" && t.method == "get") = 1 ∧
    ∃ t, t ∈ [(⟨"getItems", "GET /items", "get", "/items", ["ctx: Context"]⟩ : ToolDef)] ∧
      t.operation_id = "getItems" ∧ t.path = "/items" ∧ t.method = "get" :=
  (generate_tool_definitions_per_operation specW1
      [("paths", Yaml.map
         [("/items", Yaml.map
            [("get", Yaml.map [("operationId", Yaml.str "getItems")]),
             ("post", Yaml.map [("summary", Yaml.str "no id")]),
             ("head", Yaml.map [("operationId", Yaml.str "headOp")])])])]
      [("/items", Yaml.map
         [("get", Yaml.map [("operationId", Yaml.str "getItems")]),
          ("post", Yaml.map [("summary", Yaml.str "no id")]),
          ("head", Yaml.map [("operationId", Yaml.str "headOp")])])]
      [(⟨"getItems", "GET /items", "get", "/items", ["ctx: Context"]⟩ : ToolDef)]
      rfl rfl (by decide) rfl
      "/items"
      [("get", Yaml.map [("operationId", Yaml.str "getItems")]),
       ("post", Yaml.map [("summary", Yaml.str "no id")]),
       ("head", Yaml.map [("operationId", Yaml.str "headOp")])]
      (List.mem_singleton.mpr rfl) (by decide)
      "get" (Yaml.map [("operationId", Yaml.str "getItems")])
      (List.mem_cons_self _ _)).1
    [("operationId", Yaml.str "getItems")] "getItems" rfl rfl rfl

/-- Claim C2 counterexample: the generator checks only for the presence
of the `operationId` key, so a document mapping `operationId` to the
empty string produces a tool block whose id is the empty string. -/
theorem generate_tool_empty_id_cex :
    generate_tool_definitions_list specEmptyId =
      Except.ok [(⟨"", "GET /x", "get", "/x", ["ctx: Context"]⟩ : ToolDef)] ∧
    (⟨"", "GET /x", "get", "/x", ["ctx: Context"]⟩ : ToolDef).operation_id = "" :=
  ⟨rfl, rfl⟩

/-- Claim C2 (amended): every emitted tool block's id is the rendering of
the source operation's `operationId` value; in particular the id is
non-empty for every document in which all `operationId` values occurring
under `paths` are non-empty strings (operations lacking the key entirely
are skipped, but an explicitly empty `operationId` string is kept and
yields an empty id). -/
theorem emitted_tool_ids_nonempty
    (spec : Yaml) (skvs pkvs : List (String × Yaml)) (ts : List ToolDef)
    (hs : spec = Yaml.map skvs)
    (hp : dictLookup "paths" skvs = some (Yaml.map pkvs))
    (hts : generate_tool_definitions_list spec = Except.ok ts)
    (hids : ∀ p pi mkvs m op okvs idv,
       (p, pi) ∈ pkvs → pyItems pi = Except.ok mkvs → (m, op) ∈ mkvs →
       op = Yaml.map okvs → dictLookup "operationId" okvs = some idv →
       ∃ s, idv = Yaml.str s ∧ s ≠ "") :
    ∀ t ∈ ts, t.operation_id ≠ "" := by
  have hts' : toolsOfPaths spec pkvs = Except.ok ts :=
    generate_tool_definitions_list_eq hs hp hts
  intro t ht
  obtain ⟨pi, mkvs, op, hmem, hpyi, hopmem, hal, hgt⟩ := toolsOfPaths_mem hts' ht
  obtain ⟨_, _, okvs, idv, hok, hlook, hstr⟩ := _generate_tool_ok_some hgt
  obtain ⟨s, hvs, hne⟩ := hids _ _ _ _ _ _ _ hmem hpyi hopmem hok hlook
  subst hvs
  have : s = t.operation_id := Except.ok.inj hstr
  rw [← this]
  exact hne

/-- Witness for the amended claim C2 on `specW2`, at the single emitted
tool block. -/
theorem emitted_tool_ids_nonempty_witness :
    (⟨"op1", "GET /y", "get", "/y", ["ctx: Context"]⟩ : ToolDef).operation_id ≠ "" := by
  refine emitted_tool_ids_nonempty specW2
    [("paths", Yaml.map [("/y", Yaml.map [("get", Yaml.map [("operationId", Yaml.str "op1")])])])]
    [("/y", Yaml.map [("get", Yaml.map [("operationId", Yaml.str "op1")])])]
    [(⟨"op1", "GET /y", "get", "/y", ["ctx: Context"]⟩ : ToolDef)]
    rfl rfl rfl ?_
    (⟨"op1", "GET /y", "get", "/y", ["ctx: Context"]⟩ : ToolDef)
    (List.mem_singleton.mpr rfl)
  intro p pi mkvs m op okvs idv h1 h2 h3 h4 h5
  have hpair := List.mem_singleton.mp h1
  have hpiv : pi = Yaml.map [("get", Yaml.map [("operationId", Yaml.str "op1")])] :=
    congrArg Prod.snd hpair
  rw [hpiv] at h2
  have hmk : mkvs = [("get", Yaml.map [("operationId", Yaml.str "op1")])] :=
    (Except.ok.inj h2).symm
  rw [hmk] at h3
  have hopv : op = Yaml.map [("operationId", Yaml.str "op1")] :=
    congrArg Prod.snd (List.mem_singleton.mp h3)
  rw [hopv] at h4
  have hokvs : okvs = [("operationId", Yaml.str "op1")] := by
    injection h4 with hh
    exact hh.symm
  rw [hokvs] at h5
  have hidv : idv = Yaml.str "op1" := by
    simpa [dictLookup] using h5.symm
  exact ⟨"op1", hidv, by decide⟩

theorem eseq_pure {a : Type} (x : Except PyError a) : eseq x Except.ok = x := by
  cases x <;> rfl

/-- Claim C3 counterexample: when an intermediate segment of a reference
lands on a non-mapping value (here a list), the subscript raises a type
error which `resolve_reference` does not catch (it only catches the
absent-key error), and the error escapes the whole tool generation run
instead of being handled locally. -/
theorem resolve_reference_nonmap_cex :
    resolve_reference specRefTypeError "#/a/b" = Except.error PyError.typeError ∧
    generate_tool_definitions_list specRefTypeError = Except.error PyError.typeError :=
  ⟨rfl, rfl⟩

/-- Claim C3 (amended): reference resolution returns the object reached by
successively indexing the document by each segment; when a segment is
absent from a mapping the failure is local — the empty object is returned
(after a warning) and the referring parameter is simply omitted while the
surrounding parameters are processed normally; but when an intermediate
segment lands on a non-mapping value the uncaught type error terminates
the run. -/
theorem resolve_reference_local_failure (spec : Yaml) (ref : String) :
    (∀ v, navigateRef spec (splitOnSlash (pyStripHashSlash ref)) = Except.ok v →
       resolve_reference spec ref = Except.ok v) ∧
    (navigateRef spec (splitOnSlash (pyStripHashSlash ref)) =
        Except.error PyError.keyError →
       resolve_reference spec ref = Except.ok (Yaml.map [])) ∧
    (navigateRef spec (splitOnSlash (pyStripHashSlash ref)) =
        Except.error PyError.keyError →
       ∀ ps1 ps2,
         paramLoop spec (ps1 ++ Yaml.map [("$ref", Yaml.str ref)] :: ps2) =
           paramLoop spec (ps1 ++ ps2)) := by
  refine ⟨?_, ?_, ?_⟩
  · intro v h
    unfold resolve_reference
    rw [h]
  · intro h
    unfold resolve_reference
    rw [h]
  · intro h ps1 ps2
    have hres : resolve_reference spec ref = Except.ok (Yaml.map []) := by
      unfold resolve_reference
      rw [h]
    have hrpo : resolveParamObj spec (Yaml.map [("$ref", Yaml.str ref)]) =
        Except.ok (Yaml.map []) := by
      unfold resolveParamObj
      rw [show pyContains "$ref" (Yaml.map [("$ref", Yaml.str ref)]) =
            Except.ok true by simp [pyContains, dictLookup]]
      rw [eseq_ok, if_pos rfl]
      rw [show pyIndex (Yaml.map [("$ref", Yaml.str ref)]) "$ref" =
            Except.ok (Yaml.str ref) by simp [pyIndex, dictLookup]]
      rw [eseq_ok]
      show resolve_reference spec ref = Except.ok (Yaml.map [])
      exact hres
    have hskip : processParam spec (Yaml.map [("$ref", Yaml.str ref)]) =
        Except.ok none := by
      unfold processParam
      rw [hrpo, eseq_ok]
      rfl
    induction ps1 with
    | nil =>
        simp only [List.nil_append, paramLoop, hskip, eseq_ok,
                   Option.toList_none, List.nil_append]
        exact eseq_pure _
    | cons q qs ih =>
        simp only [List.cons_append, paramLoop, List.append_eq, ih]

/-- Witness for the amended claim C3: a missing-key reference resolves to
the empty object and its referring parameter is dropped without
disturbing the (here empty) rest of the parameter list. -/
theorem resolve_reference_local_failure_witness :
    resolve_reference specRefMissing "#/a/missing" = Except.ok (Yaml.map []) ∧
    paramLoop specRefMissing
        ([] ++ Yaml.map [("$ref", Yaml.str "#/a/missing")] :: []) =
      paramLoop specRefMissing ([] ++ []) :=
  ⟨(resolve_reference_local_failure specRefMissing "#/a/missing").2.1 rfl,
   (resolve_reference_local_failure specRefMissing "#/a/missing").2.2 rfl [] []⟩

/-- Claim C9: a parameter given as a resolvable pointer and the same
pointed-to object written inline are processed identically — the
resulting parameter fragment (name and inferred type) is the same, as is
the skip behaviour, provided the pointed-to object is a mapping that does
not itself contain a `$ref` key. -/
theorem processParam_ref_eq_inline
    (spec : Yaml) (r : String) (okvs : List (String × Yaml))
    (hres : navigateRef spec (splitOnSlash (pyStripHashSlash r)) =
      Except.ok (Yaml.map okvs))
    (hnoref : dictLookup "$ref" okvs = none) :
    processParam spec (Yaml.map [("$ref", Yaml.str r)]) =
      processParam spec (Yaml.map okvs) := by
  have hres2 : resolve_reference spec r = Except.ok (Yaml.map okvs) := by
    unfold resolve_reference
    rw [hres]
  have hrpo : resolveParamObj spec (Yaml.map [("$ref", Yaml.str r)]) =
      Except.ok (Yaml.map okvs) := by
    unfold resolveParamObj
    rw [show pyContains "$ref" (Yaml.map [("$ref", Yaml.str r)]) =
          Except.ok true by simp [pyContains, dictLookup]]
    rw [eseq_ok, if_pos rfl]
    rw [show pyIndex (Yaml.map [("$ref", Yaml.str r)]) "$ref" =
          Except.ok (Yaml.str r) by simp [pyIndex, dictLookup]]
    rw [eseq_ok]
    show resolve_reference spec r = Except.ok (Yaml.map okvs)
    exact hres2
  have hrpo2 : resolveParamObj spec (Yaml.map okvs) =
      Except.ok (Yaml.map okvs) := by
    unfold resolveParamObj
    rw [show pyContains "$ref" (Yaml.map okvs) =
          Except.ok false by simp [pyContains, hnoref]]
    simp
  unfold processParam
  rw [hrpo, hrpo2]

/-- Witness for claim C9 on `specRefParam`: resolving the pointer and
inlining the pointed-to parameter object process identically. -/
theorem processParam_ref_eq_inline_witness :
    processParam specRefParam
        (Yaml.map [("$ref", Yaml.str "#/components/parameters/P")]) =
      processParam specRefParam
        (Yaml.map [("name", Yaml.str "id"),
                   ("schema", Yaml.map [("type", Yaml.str "integer")])]) :=
  processParam_ref_eq_inline specRefParam "#/components/parameters/P"
    [("name", Yaml.str "id"), ("schema", Yaml.map [("type", Yaml.str "integer")])]
    rfl rfl

/-- Claim C10: an eligible operation without a `description` field gets
the default description — the method upper-cased, a space, and the path —
passed through the standard sanitization. -/
theorem _generate_tool_default_description
    (spec : Yaml) (p m : String) (okvs : List (String × Yaml)) (t : ToolDef)
    (hdesc : dictLookup "description" okvs = none)
    (h : _generate_tool spec p m (Yaml.map okvs) = Except.ok (some t)) :
    t.description = sanitize_description (pyUpper m ++ " " ++ p) := by
  unfold _generate_tool at h
  obtain ⟨hasId, hc, h⟩ := eseq_eq_ok h
  cases hasId with
  | false =>
      simp only [Bool.false_eq_true, if_false] at h
      exact Option.noConfusion (Except.ok.inj h)
  | true =>
      simp only [if_true] at h
      obtain ⟨idv, hidx, h⟩ := eseq_eq_ok h
      obtain ⟨oid, hstr, h⟩ := eseq_eq_ok h
      obtain ⟨descv, hget, h⟩ := eseq_eq_ok h
      have hdv : descv = Yaml.str (pyUpper m ++ " " ++ p) := by
        simp [Yaml.get, hdesc] at hget
        exact hget.symm
      subst hdv
      obtain ⟨d, hsan, h⟩ := eseq_eq_ok h
      rw [sanitizeYaml_str] at hsan
      have hd : d = sanitize_description (pyUpper m ++ " " ++ p) :=
        (Except.ok.inj hsan).symm
      obtain ⟨ps, hps, h⟩ := eseq_eq_ok h
      have ht := Option.some.inj (Except.ok.inj h)
      rw [← ht]
      exact hd

/-- Witness for claim C10 on the description-free `get` operation of
`specW1`. -/
theorem _generate_tool_default_description_witness :
    (⟨"getItems", "GET /items", "get", "/items", ["ctx: Context"]⟩ :
        ToolDef).description =
      sanitize_description (pyUpper "get" ++ " " ++ "/items") :=
  _generate_tool_default_description specW1 "/items" "get"
    [("operationId", Yaml.str "getItems")]
    (⟨"getItems", "GET /items", "get", "/items", ["ctx: Context"]⟩ : ToolDef)
    rfl rfl

/-- Claim C7: resource generation emits exactly one API-info resource
(uri api://info, with the fixed fallbacks when title, version or
description are absent) followed by exactly one resource per entry of
`components.schemas`, with uri schema://name, in document order. -/
theorem generate_resource_definitions_shape
    (spec : Yaml) (skvs ikvs ckvs sckvs : List (String × Yaml))
    (rs : List ResourceDef)
    (hs : spec = Yaml.map skvs)
    (hinfo : (dictLookup "info" skvs).getD (Yaml.map []) = Yaml.map ikvs)
    (hcomp : (dictLookup "components" skvs).getD (Yaml.map []) = Yaml.map ckvs)
    (hschemas : (dictLookup "schemas" ckvs).getD (Yaml.map []) = Yaml.map sckvs)
    (hok : generate_resource_definitions_list spec = Except.ok rs) :
    rs.map ResourceDef.uri =
      "api://info" :: sckvs.map (fun e => "schema://" ++ e.1) ∧
    rs.countP isApiInfo = 1 ∧
    ∃ ti ve de, rs = ResourceDef.apiInfo ti ve de ::
        sckvs.map (fun e => ResourceDef.schemaRes e.1 e.2) ∧
      (dictLookup "title" ikvs = none → ti = "API") ∧
      (dictLookup "version" ikvs = none → ve = "1.0.0") ∧
      (dictLookup "description" ikvs = none → de = "API description") := by
  subst hs
  unfold generate_resource_definitions_list at hok
  obtain ⟨ir, hir, hok⟩ := eseq_eq_ok hok
  obtain ⟨srs, hsrs, hok⟩ := eseq_eq_ok hok
  have hrs : ir :: srs = rs := Except.ok.inj hok
  unfold _generate_schema_resources at hsrs
  rw [show Yaml.get (Yaml.map skvs) "components" (Yaml.map []) =
        Except.ok (Yaml.map ckvs) by simp [Yaml.get, hcomp], eseq_ok] at hsrs
  rw [show Yaml.get (Yaml.map ckvs) "schemas" (Yaml.map []) =
        Except.ok (Yaml.map sckvs) by simp [Yaml.get, hschemas], eseq_ok] at hsrs
  rw [show pyItems (Yaml.map sckvs) = Except.ok sckvs from rfl, eseq_ok] at hsrs
  have hsrsv : sckvs.map (fun e => ResourceDef.schemaRes e.1 e.2) = srs :=
    Except.ok.inj hsrs
  unfold _generate_api_info_resource at hir
  rw [show Yaml.get (Yaml.map skvs) "info" (Yaml.map []) =
        Except.ok (Yaml.map ikvs) by simp [Yaml.get, hinfo], eseq_ok] at hir
  rw [show Yaml.get (Yaml.map ikvs) "title" (Yaml.str "API") =
        Except.ok ((dictLookup "title" ikvs).getD (Yaml.str "API")) by
        simp [Yaml.get], eseq_ok] at hir
  obtain ⟨api_title, htitle, hir⟩ := eseq_eq_ok hir
  rw [show Yaml.get (Yaml.map ikvs) "version" (Yaml.str "1.0.0") =
        Except.ok ((dictLookup "version" ikvs).getD (Yaml.str "1.0.0")) by
        simp [Yaml.get], eseq_ok] at hir
  obtain ⟨api_version, hversion, hir⟩ := eseq_eq_ok hir
  rw [show Yaml.get (Yaml.map ikvs) "description" (Yaml.str "API description") =
        Except.ok ((dictLookup "description" ikvs).getD (Yaml.str "API description")) by
        simp [Yaml.get], eseq_ok] at hir
  obtain ⟨api_description, hdescr, hir⟩ := eseq_eq_ok hir
  have hirv : ResourceDef.apiInfo api_title api_version api_description = ir :=
    Except.ok.inj hir
  subst hirv
  rw [← hrs, ← hsrsv]
  refine ⟨?_, ?_, api_title, api_version, api_description, rfl, ?_, ?_, ?_⟩
  · simp [ResourceDef.uri, List.map_map, Function.comp]
  · rw [List.countP_cons]
    have h0 : (sckvs.map (fun e => ResourceDef.schemaRes e.1 e.2)).countP isApiInfo = 0 := by
      rw [List.countP_eq_zero]
      intro r hr hpred
      obtain ⟨e, _, hre⟩ := List.mem_map.mp hr
      rw [← hre] at hpred
      exact Bool.noConfusion hpred
    simp [h0, isApiInfo]
  · intro hnone
    rw [hnone] at htitle
    exact Except.ok.inj htitle.symm
  · intro hnone
    rw [hnone] at hversion
    exact Except.ok.inj hversion.symm
  · intro hnone
    rw [hnone] at hdescr
    simp only [Option.getD_none] at hdescr
    have : sanitizeYaml (Yaml.str "API description") =
        Except.ok (sanitize_description "API description") := sanitizeYaml_str _
    rw [this] at hdescr
    have he : sanitize_description "API description" = "API description" := by decide
    rw [he] at hdescr
    exact Except.ok.inj hdescr.symm

/-- Witness for claim C7 on `specRes`: the uri list and the api-info
count of the generated resources. -/
theorem generate_resource_definitions_shape_witness :
    ([ResourceDef.apiInfo "T" "1.0.0" "API description",
      ResourceDef.schemaRes "Item" (Yaml.map [("type", Yaml.str "object")])].map
        ResourceDef.uri =
      "api://info" ::
        ([("Item", Yaml.map [("type", Yaml.str "object")])].map
          (fun e => "schema://" ++ e.1))) ∧
    ([ResourceDef.apiInfo "T" "1.0.0" "API description",
      ResourceDef.schemaRes "Item" (Yaml.map [("type", Yaml.str "object")])].countP
        isApiInfo = 1) :=
  ⟨(generate_resource_definitions_shape specRes
      [("info", Yaml.map [("title", Yaml.str "T")]),
       ("components", Yaml.map
          [("schemas", Yaml.map [("Item", Yaml.map [("type", Yaml.str "object")])])])]
      [("title", Yaml.str "T")]
      [("schemas", Yaml.map [("Item", Yaml.map [("type", Yaml.str "object")])])]
      [("Item", Yaml.map [("type", Yaml.str "object")])]
      [ResourceDef.apiInfo "T" "1.0.0" "API description",
       ResourceDef.schemaRes "Item" (Yaml.map [("type", Yaml.str "object")])]
      rfl rfl rfl rfl rfl).1,
   (generate_resource_definitions_shape specRes
      [("info", Yaml.map [("title", Yaml.str "T")]),
       ("components", Yaml.map
          [("schemas", Yaml.map [("Item", Yaml.map [("type", Yaml.str "object")])])])]
      [("title", Yaml.str "T")]
      [("schemas", Yaml.map [("Item", Yaml.map [("type", Yaml.str "object")])])]
      [("Item", Yaml.map [("type", Yaml.str "object")])]
      [ResourceDef.apiInfo "T" "1.0.0" "API description",
       ResourceDef.schemaRes "Item" (Yaml.map [("type", Yaml.str "object")])]
      rfl rfl rfl rfl rfl).2.1⟩

/-- Claim C8: the fallback implementations of resource generation in
generator.py and mcp_generator.py (the ones the shipped run actually
falls back to) embed the info description raw, without the sanitization
that the modular core applies and that the specification mandates for
descriptive text in every generated artifact.  At the failing input the
legacy output carries an unescaped quote while the modular core escapes
it. -/
theorem legacy_resource_description_unsanitized :
    legacy_generate_resource_definitions_list specQuoteDesc =
      Except.ok [ResourceDef.apiInfo "API" "1.0.0" "say \"hi\""] ∧
    generate_resource_definitions_list specQuoteDesc =
      Except.ok [ResourceDef.apiInfo "API" "1.0.0" "say \\\"hi\\\""] ∧
    "say \"hi\"" ≠ sanitize_description "say \"hi\"" :=
  ⟨rfl, rfl, by decide⟩

/-- Claim C6: document loading fails exactly on a missing path
(NotFound), an unreadable or undecodable file (ReadError), or content
that does not parse to a top-level mapping — including scalars, lists and
empty content (ParseError); each failure carries a nonzero completion
code, and every other input returns the parsed mapping. -/
theorem parse_openapi_spec_cases (file : FileInput)
    (yp : String → ParseOutcome) :
    (parse_openapi_spec file yp = LoadResult.fatal FailCond.notFound 1 ↔
       file = FileInput.missing) ∧
    (parse_openapi_spec file yp = LoadResult.fatal FailCond.readError 1 ↔
       file = FileInput.unreadable) ∧
    (∀ text kvs, file = FileInput.content text →
       yp text = ParseOutcome.value (Yaml.map kvs) →
       parse_openapi_spec file yp = LoadResult.ok kvs) ∧
    (∀ text, file = FileInput.content text → yp text = ParseOutcome.yamlError →
       parse_openapi_spec file yp = LoadResult.fatal FailCond.parseError 1) ∧
    (∀ text v, file = FileInput.content text → yp text = ParseOutcome.value v →
       v.isMapB = false →
       parse_openapi_spec file yp = LoadResult.fatal FailCond.parseError 1) ∧
    (∀ c n, parse_openapi_spec file yp = LoadResult.fatal c n → n ≠ 0) := by
  refine ⟨?_, ?_, ?_, ?_, ?_, ?_⟩
  · cases file with
    | missing => simp [parse_openapi_spec]
    | unreadable => simp [parse_openapi_spec]
    | content text =>
        simp only [parse_openapi_spec]
        cases yp text with
        | yamlError => simp
        | value v => cases v <;> simp
  · cases file with
    | missing => simp [parse_openapi_spec]
    | unreadable => simp [parse_openapi_spec]
    | content text =>
        simp only [parse_openapi_spec]
        cases yp text with
        | yamlError => simp
        | value v => cases v <;> simp
  · intro text kvs hf hy
    subst hf
    simp [parse_openapi_spec, hy]
  · intro text hf hy
    subst hf
    simp [parse_openapi_spec, hy]
  · intro text v hf hy hv
    subst hf
    simp only [parse_openapi_spec, hy]
    cases v with
    | map kvs => exact absurd hv (by simp [Yaml.isMapB])
    | null => rfl
    | bool b => rfl
    | int n => rfl
    | str s => rfl
    | list xs => rfl
  · intro c n h
    cases file with
    | missing =>
        injection h with h1 h2
        omega
    | unreadable =>
        injection h with h1 h2
        omega
    | content text =>
        simp only [parse_openapi_spec] at h
        cases hyp : yp text with
        | yamlError =>
            rw [hyp] at h
            injection h with h1 h2
            omega
        | value v =>
            rw [hyp] at h
            cases v with
            | map kvs => exact LoadResult.noConfusion h
            | null => injection h with h1 h2; omega
            | bool b => injection h with h1 h2; omega
            | int n => injection h with h1 h2; omega
            | str s => injection h with h1 h2; omega
            | list xs => injection h with h1 h2; omega

/-- Witness for claim C6: a concrete mapping document loads, and loading
the empty document (which parses to the null scalar) fails fatally with a
nonzero code. -/
theorem parse_openapi_spec_cases_witness :
    parse_openapi_spec (FileInput.content "openapi")
        (fun _ => ParseOutcome.value (Yaml.map [("openapi", Yaml.str "3.0.0")])) =
      LoadResult.ok [("openapi", Yaml.str "3.0.0")] ∧
    parse_openapi_spec (FileInput.content "")
        (fun _ => ParseOutcome.value Yaml.null) =
      LoadResult.fatal FailCond.parseError 1 :=
  ⟨(parse_openapi_spec_cases (FileInput.content "openapi")
      (fun _ => ParseOutcome.value (Yaml.map [("openapi", Yaml.str "3.0.0")]))).2.2.1
      "openapi" [("openapi", Yaml.str "3.0.0")] rfl rfl,
   (parse_openapi_spec_cases (FileInput.content "")
      (fun _ => ParseOutcome.value Yaml.null)).2.2.2.2.1
      "" Yaml.null rfl rfl rfl⟩
